import Mathlib

/-!
Verification development for the `editor` prototypes repository
(`prototypes/rope.py`, `prototypes/ot.py`, `prototypes/regex/…`).

Every definition below is a shallow embedding of the corresponding Python
source (file and symbol are named in each doc comment).  Machine strings are
modelled as `List Char` (Python unicode strings are sequences of code
points), Python `None`/value results as `Option`, and raised exceptions as
`Except`/error values.  The embeddings keep the control flow of the source,
including its bugs; deviations forced by the host language (e.g. fuel for
loops whose termination Python does not guarantee) are noted where they
occur.
-/

namespace Editor

/-! ### Rope (`prototypes/rope.py`)

A rope is a persistent tree of string leaves (`String`), concatenation
nodes (`Concatenation`) and structural repetitions (`Repetition`).
The Python classes are embedded as one inductive; `times` of a live
`Repetition` node is a positive machine integer, embedded as `Nat`.
-/

inductive RopeT : Type
  | str (data : List Char)
  | concat (left right : RopeT)
  | rep (times : Nat) (inner : RopeT)
  deriving DecidableEq, Repr

/-- Exceptions that the rope indexing code can raise. -/
inductive RopeExc : Type
  | valueError
  | indexError
  | zeroDivisionError
  deriving DecidableEq, Repr

/-- `len(rope)`: `String.__len__`, `Concatenation.__len__`,
`Repetition.__len__` from `prototypes/rope.py`. -/
def ropeLen : RopeT → Nat
  | .str data => data.length
  | .concat l r => ropeLen l + ropeLen r
  | .rep times inner => times * ropeLen inner

/-- Integer indexing, `__getitem__` of the three rope classes
(`prototypes/rope.py` lines 89–104, 143–151, 173–176), for a non-negative
`int` index (the `assert index >= 0` guards hold for a `Nat` index).

* `String.__getitem__` delegates to Python string indexing, which raises
  `IndexError` out of range.
* `Concatenation.__getitem__` is embedded exactly as written in the
  source, including its inverted comparisons: `if len(self) > index:
  raise ValueError()`, `if len(self.left) < index: return
  self.left[index]`, `index -= len(self.left)`, `if len(self.right) <
  index: return self.right[index]`, `raise IndexError()`.
* `Repetition.__getitem__` returns `self.rope[index % len(self.rope)]`
  with no bound check against `len(self)`; `% 0` raises
  `ZeroDivisionError` in Python.
-/
def getitem : RopeT → Nat → Except RopeExc Char
  | .str data, index =>
      if h : index < data.length then .ok (data.get ⟨index, h⟩)
      else .error .indexError
  | .concat l r, index =>
      if ropeLen (.concat l r) > index then .error .valueError
      else if ropeLen l < index then getitem l index
      else
        let index' := index - ropeLen l
        if ropeLen r < index' then getitem r index'
        else .error .indexError
  | .rep _ inner, index =>
      if ropeLen inner = 0 then .error .zeroDivisionError
      else getitem inner (index % ropeLen inner)

/-- The observable code-point sequence of a rope, by the `__iter__`
methods of `prototypes/rope.py` (leaf: the data; concatenation: left then
right; repetition: `times` copies of inner). -/
def ropeToList : RopeT → List Char
  | .str data => data
  | .concat l r => ropeToList l ++ ropeToList r
  | .rep times inner => (List.replicate times (ropeToList inner)).flatten

/-- `Rope.__eq__` (`prototypes/rope.py` lines 51–56): zip the two
iteration sequences (`izip` stops at the shorter one) and compare
pairwise; there is no length check. -/
def ropeEq (a b : RopeT) : Bool :=
  (List.zip (ropeToList a) (ropeToList b)).all (fun p => p.1 = p.2)

/-! ### Operational transformation (`prototypes/ot.py`)

Operations carry a start position and a string.  `include` performs
inclusion transformation and returns a list of replacement operations.
There is no `apply` in the source; applying an operation to a document is
modelled from the spec where a claim needs it.
-/

inductive Op : Type
  | insert (start : Nat) (string : List Char)
  | delete (start : Nat) (string : List Char)
  deriving DecidableEq, Repr

/-- `len(op)` = `len(op.string)` (`Operation.__len__`). -/
def Op.length : Op → Nat
  | .insert _ s => s.length
  | .delete _ s => s.length

/-- `op.start`. -/
def Op.start : Op → Nat
  | .insert p _ => p
  | .delete p _ => p

/-- `op.end = op.start + len(op)` (`Operation.end`). -/
def Op.stop : Op → Nat
  | op => op.start + op.length

/-- `Insert.undo` and `Delete.undo` (`prototypes/ot.py` lines 90–91 and
118–119).  `Delete(p, s).undo()` returns `Insert(p, s)`.
`Insert.undo` evaluates `Delete(self.position, self.string)`, but no
class in the file ever defines an attribute named `position` (the
constructor stores `start`), so the attribute lookup raises
`AttributeError`; that exception is the embedded result. -/
def Op.undo : Op → Except Unit Op
  | .insert _ _ => .error ()
  | .delete p s => .ok (.insert p s)

/-- `Insert._include_insert` (`prototypes/ot.py` lines 93–96):
`if self.start >= other.start: return [Insert(self.start + len(other),
self.string)]; return [self]`.  Defined on the payload of an `Insert`
transformed against a concurrent `Insert`. -/
def insertIncludeInsert (selfStart : Nat) (selfString : List Char)
    (other : Op) : List Op :=
  if selfStart ≥ other.start then
    [.insert (selfStart + other.length) selfString]
  else
    [.insert selfStart selfString]

/-- Modelled from the spec: `prototypes/ot.py` defines no `apply`; the
spec (§4.10, §8) describes applying `Insert(start, s)` to a document `D`
as inserting `s` at offset `start`, i.e. `D[:start] + s + D[start:]`. -/
def applyInsert (document : List Char) (start : Nat) (s : List Char) :
    List Char :=
  document.take start ++ s ++ document.drop start

/-- Modelled from the spec: applying one operation to a document.
`Delete(start, s)` removes `len(s)` code points at `start`
(`D[:start] + D[start+len(s):]`); preconditions are not re-checked here
because the claims below only apply operations that are valid. -/
def applyOp (document : List Char) : Op → List Char
  | .insert p s => applyInsert document p s
  | .delete p s => document.take p ++ document.drop (p + s.length)

/-- Modelled from the spec: applying every operation of a list (the
result of `include`) in order. -/
def applyOps (document : List Char) (ops : List Op) : List Char :=
  ops.foldl applyOp document

/-! ### Regex AST (`prototypes/regex/ast.py`)

Class hierarchy embedded as one inductive.  `Either`/`Neither` hold
characters and ranges (`Range(start, end, alphabet)` with `Character`
endpoints); Python keeps them in a `frozenset`, embedded as a list in
construction order (none of the verified claims depends on the set
identity).  The alphabet (a set of `Character`s in the source) is
embedded as a `List Char`.
-/

inductive EItem : Type
  | echr (c : Char)
  | erng (start : EItem) (endc : Char) (alphabet : List Char)
  deriving DecidableEq, Repr

inductive Ast : Type
  | epsilon
  | any (alphabet : List Char)
  | chr (c : Char)
  | concat (left right : Ast)
  | union (left right : Ast)
  | rep (x : Ast)
  | group (x : Ast)
  | either (items : List EItem)
  | neither (items : List EItem) (alphabet : List Char)
  deriving DecidableEq, Repr

/-- Smart constructor `Operator.__new__` for `Concatenation`
(`prototypes/regex/ast.py` lines 107–112): an `Epsilon` operand yields
the other operand. -/
def mkConcat (l r : Ast) : Ast :=
  if l = .epsilon then r else if r = .epsilon then l else .concat l r

/-- Smart constructor `Operator.__new__` for `Union`: an `Epsilon`
operand yields the other operand. -/
def mkUnion (l r : Ast) : Ast :=
  if l = .epsilon then r else if r = .epsilon then l else .union l r

/-! ### Regex parser (`prototypes/regex/parser.py`) -/

/-- `Language` (`prototypes/regex/parser.py` lines 42–63): the
single-code-point markers.  Each marker is a one-character string in the
source, embedded as a `Char`. -/
structure Language : Type where
  escape : Char
  union : Char
  group_begin : Char
  group_end : Char
  either_begin : Char
  either_end : Char
  neither_indicator : Char
  zero_or_more : Char
  one_or_more : Char
  range : Char
  any : Char
  deriving DecidableEq, Repr

/-- `DEFAULT_LANGUAGE = Language()` with the default markers
`\ | ( ) [ ] ^ * + - .`. -/
def DEFAULT_LANGUAGE : Language :=
  { escape := '\\', union := '|',
    group_begin := '(', group_end := ')',
    either_begin := '[', either_end := ']',
    neither_indicator := '^',
    zero_or_more := '*', one_or_more := '+',
    range := '-', any := '.' }

/-- `Language.special_characters` (lines 87–97); the neither indicator is
not in the set, exactly as in the source. -/
def Language.specialCharacters (lang : Language) : List Char :=
  [lang.escape, lang.union, lang.group_begin, lang.group_end,
   lang.either_begin, lang.either_end, lang.zero_or_more,
   lang.one_or_more, lang.range, lang.any]

/-- `Language.repetition_characters` (lines 99–101). -/
def Language.repetitionCharacters (lang : Language) : List Char :=
  [lang.zero_or_more, lang.one_or_more]

/-- `Language.end_characters` (lines 103–105). -/
def Language.endCharacters (lang : Language) : List Char :=
  [lang.group_end, lang.either_end]

/-- `Input` (`prototypes/regex/parser.py` lines 174–238): the original
string, the not-yet-consumed rest (lookahead deque followed by the
character iterator; the parser only ever looks one character ahead, so
the two collapse to one list), and the cursor, which starts at `-1` and
is the index of the last consumed character. -/
structure Input : Type where
  string : List Char
  rest : List Char
  position : Int
  deriving DecidableEq, Repr

def mkInput (s : List Char) : Input := ⟨s, s, -1⟩

/-- `Input.lookahead(1)`: peek without consuming; `none` is the
`StopIteration` case. -/
def Input.lookahead1 (inp : Input) : Option Char := inp.rest.head?

/-- `Input.next` without `fail_unexpected`: pop one character and
advance the cursor; `none` is a raised `StopIteration`. -/
def Input.next1 (inp : Input) : Option (Char × Input) :=
  match inp.rest with
  | [] => none
  | c :: r => some (c, ⟨inp.string, r, inp.position + 1⟩)

/-- `Input.consume(1)` after a successful one-character lookahead (its
`RuntimeError` guard cannot fire with single-character lookahead). -/
def Input.consume1 (inp : Input) : Input :=
  match inp.rest with
  | [] => inp
  | _ :: r => ⟨inp.string, r, inp.position + 1⟩

/-- The caret line of `Input.annotated` (lines 225–229):
`[u" "] * (position + 1)` with a `^` written at `position`. -/
def caretLine (position : Int) : List Char :=
  (List.replicate (position + 1).toNat ' ').set position.toNat '^'

/-- `Input.annotated`: the original string, a newline, and the caret
line. -/
def Input.annotated (inp : Input) (position : Int) : List Char :=
  inp.string ++ '\n' :: caretLine position

/-- The annotation line of `Input.annotated_range` (lines 231–238):
spaces up to `e`, carets at `s` and `e`, hyphens strictly between. -/
def caretRangeLine (s e : Int) : List Char :=
  let base := (List.replicate (e + 1).toNat ' ').set s.toNat '^'
  let base := base.set e.toNat '^'
  base.mapIdx fun i c => if s < (i : Int) ∧ (i : Int) < e then '-' else c

/-- `Input.annotated_range`. -/
def Input.annotatedRange (inp : Input) (s e : Int) : List Char :=
  inp.string ++ '\n' :: caretRangeLine s e

/-- Exceptions of the parser embedding.

* `parserError` is a raised `ParserError(reason, annotation)`.
* `stopIteration` is an uncaught `StopIteration` escaping the parser.
* `attributeError` is the `AttributeError` raised by the escape branch of
  `parse_expression` (line 328), which reads `self.input` although the
  `Parser` object has no attribute `input`.
* `raiseNonExc` is `raise Parser(reason, …)` in `Input.next`
  (line 202): it instantiates the `Parser` class, which is not an
  exception type, so Python 2 raises a `TypeError` at the `raise`.
* `fuelExhausted` marks exhaustion of the recursion fuel of this
  embedding; the fuel passed by `parse` below is large enough that it is
  never reached. -/
inductive PyExc : Type
  | parserError (reason annot : List Char)
  | stopIteration
  | attributeError
  | raiseNonExc
  | fuelExhausted
  deriving DecidableEq, Repr

/-- Reason of the repetition-marker error (line 339). -/
def repeatReason (c : Char) : List Char :=
  c :: (" is not preceded by a repeatable expression").toList

/-- Reason of the mismatch error of `Parser.expect` (line 254); the source
formats `(actual, expected)` into `"expected %s, got %s"` in that order. -/
def expectGotReason (actual expected : Char) : List Char :=
  ("expected ").toList ++ actual :: (", got ").toList ++ [expected]

/-- Reason of the unclosed-delimiter error in `expect_surrounding`
(lines 274–283). -/
def unclosedReason (stop start : Char) : List Char :=
  ("unexpected end of string, expected ").toList ++
    stop :: (" corresponding to ").toList ++ [start]

/-- Reason of the wrong-closing-character error in `expect_surrounding`
(lines 284–290). -/
def wrongCloseReason (stop start got : Char) : List Char :=
  ("expected ").toList ++ stop :: (" corresponding to ").toList ++
    start :: (", got ").toList ++ [got]

/-- `Parser.finish` (lines 292–295): a null result becomes `Epsilon`. -/
def finishResult : Option Ast → Ast
  | none => .epsilon
  | some r => r

/-- `Parser.concat_or_return` (lines 377–380). -/
def concatOrReturn (result : Option Ast) (regex : Ast) : Ast :=
  match result with
  | none => regex
  | some r => mkConcat r regex

/-- `Parser.parse_character` (lines 431–440): take the next character
(escape takes the one after it verbatim); a special character that is
not escaped raises `ParserError("expected character, found instruction:
X")`. -/
def parseCharacter (lang : Language) (inp : Input) :
    Except PyExc (Char × Input) :=
  match inp.next1 with
  | none => .error .raiseNonExc
  | some (character, inp) =>
      if character = lang.escape then
        match inp.next1 with
        | none => .error .raiseNonExc
        | some (character, inp) => .ok (character, inp)
      else if character ∈ lang.specialCharacters then
        .error (.parserError
          (("expected character, found instruction: ").toList ++ [character])
          (inp.annotated inp.position))
      else .ok (character, inp)

mutual

/-- `Parser.parse_expression` (`prototypes/regex/parser.py` lines
314–375), fuel-indexed.  Each loop iteration examines the lookahead
character and dispatches, in source order, on: escape (whose body reads
the undefined `self.input` and therefore raises `AttributeError`),
repetition markers, union, group begin, either begin, any, end
characters (break without consuming), otherwise a literal character.
Exhausted input breaks the loop; a null result finishes as `Epsilon`. -/
def parseExpression (lang : Language) (alphabet : List Char) :
    Nat → Input → Option Ast → Except PyExc (Ast × Input)
  | 0, _, _ => .error .fuelExhausted
  | fuel + 1, inp, result =>
    match inp.lookahead1 with
    | none => .ok (finishResult result, inp)
    | some character =>
      if character = lang.escape then
        .error .attributeError
      else if character ∈ lang.repetitionCharacters then
        let inp := inp.consume1
        match result with
        | none =>
            .error (.parserError (repeatReason character)
              (inp.annotated inp.position))
        | some r =>
            let requireOnce := character = lang.one_or_more
            let r := if requireOnce then mkConcat r r else r
            let r :=
              match r with
              | .concat left right => mkConcat left (.rep right)
              | other => .rep other
            parseExpression lang alphabet fuel inp (some r)
      else if character = lang.union then
        let inp := inp.consume1
        match parseExpression lang alphabet fuel inp none with
        | .error e => .error e
        | .ok (sub, inp) =>
            parseExpression lang alphabet fuel inp
              (some (mkUnion (finishResult result) sub))
      else if character = lang.group_begin then
        match parseGroup lang alphabet fuel inp with
        | .error e => .error e
        | .ok (g, inp) =>
            parseExpression lang alphabet fuel inp
              (some (concatOrReturn result g))
      else if character = lang.either_begin then
        match parseEitherOrNeither lang alphabet fuel inp with
        | .error e => .error e
        | .ok (en, inp) =>
            parseExpression lang alphabet fuel inp
              (some (concatOrReturn result en))
      else if character = lang.any then
        parseExpression lang alphabet fuel inp.consume1
          (some (concatOrReturn result (.any alphabet)))
      else if character ∈ lang.endCharacters then
        .ok (finishResult result, inp)
      else
        parseExpression lang alphabet fuel inp.consume1
          (some (concatOrReturn result (.chr character)))

/-- `Parser.parse_group` (lines 382–384) with `expect_surrounding`
(lines 258–290) inlined: expect `(`, parse the inner expression, wrap in
`Group`, then demand the matching `)` (a ranged annotation on failure).
-/
def parseGroup (lang : Language) (alphabet : List Char) :
    Nat → Input → Except PyExc (Ast × Input)
  | 0, _ => .error .fuelExhausted
  | fuel + 1, inp =>
    match inp.next1 with
    | none => .error .raiseNonExc
    | some (actual, inp) =>
      if actual ≠ lang.group_begin then
        .error (.parserError (expectGotReason actual lang.group_begin)
          (inp.annotated inp.position))
      else
        let startPosition := inp.position
        match parseExpression lang alphabet fuel inp none with
        | .error e => .error e
        | .ok (body, inp) =>
          match inp.next1 with
          | none =>
              .error (.parserError
                (unclosedReason lang.group_end lang.group_begin)
                (inp.annotatedRange startPosition (inp.position + 1)))
          | some (character, inp) =>
              if character ≠ lang.group_end then
                .error (.parserError
                  (wrongCloseReason lang.group_end lang.group_begin character)
                  (inp.annotatedRange startPosition inp.position))
              else .ok (.group body, inp)

/-- `Parser.parse_either_or_neither` (lines 386–400) with
`expect_surrounding` inlined: expect `[`, peek for the neither
indicator (a `StopIteration` from this lookahead propagates), parse the
class body, wrap in `Neither`/`Either`, then demand the matching `]`. -/
def parseEitherOrNeither (lang : Language) (alphabet : List Char) :
    Nat → Input → Except PyExc (Ast × Input)
  | 0, _ => .error .fuelExhausted
  | fuel + 1, inp =>
    match inp.next1 with
    | none => .error .raiseNonExc
    | some (actual, inp) =>
      if actual ≠ lang.either_begin then
        .error (.parserError (expectGotReason actual lang.either_begin)
          (inp.annotated inp.position))
      else
        let startPosition := inp.position
        let inner : Except PyExc (Ast × Input) :=
          match inp.lookahead1 with
          | none => .error .stopIteration
          | some c =>
            if c = lang.neither_indicator then
              match parseEitherOrNeitherBody lang alphabet fuel
                  inp.consume1 lang.either_end [] with
              | .error e => .error e
              | .ok (items, inp) => .ok (.neither items alphabet, inp)
            else
              match parseEitherOrNeitherBody lang alphabet fuel
                  inp lang.either_end [] with
              | .error e => .error e
              | .ok (items, inp) => .ok (.either items, inp)
        match inner with
        | .error e => .error e
        | .ok (body, inp) =>
          match inp.next1 with
          | none =>
              .error (.parserError
                (unclosedReason lang.either_end lang.either_begin)
                (inp.annotatedRange startPosition (inp.position + 1)))
          | some (character, inp) =>
              if character ≠ lang.either_end then
                .error (.parserError
                  (wrongCloseReason lang.either_end lang.either_begin character)
                  (inp.annotatedRange startPosition inp.position))
              else .ok (body, inp)

/-- `Parser.parse_either_or_neither_body` (lines 402–429): accumulate
characters until the terminator.  An escape consumes the next character
but appends nothing (exactly as in the source, whose escape branch only
reassigns the loop variable); a range marker pops the last accumulated
item as the range start (error `range is missing start` when there is
none) and reads the range end with `parse_character`. -/
def parseEitherOrNeitherBody (lang : Language) (alphabet : List Char) :
    Nat → Input → Char → List EItem → Except PyExc (List EItem × Input)
  | 0, _, _, _ => .error .fuelExhausted
  | fuel + 1, inp, until_, items =>
    match inp.lookahead1 with
    | none => .ok (items, inp)
    | some character =>
      if character = until_ then .ok (items, inp)
      else
        let inp := inp.consume1
        if character = lang.escape then
          match inp.next1 with
          | none => .error .stopIteration
          | some (_, inp) =>
              parseEitherOrNeitherBody lang alphabet fuel inp until_ items
        else if character = lang.range then
          if h : items = [] then
            .error (.parserError (("range is missing start").toList)
              (inp.annotated (inp.position - 1)))
          else
            match parseCharacter lang inp with
            | .error e => .error e
            | .ok (endc, inp) =>
              parseEitherOrNeitherBody lang alphabet fuel inp until_
                (items.dropLast ++ [.erng (items.getLast h) endc alphabet])
        else
          parseEitherOrNeitherBody lang alphabet fuel inp until_
            (items ++ [.echr character])

end

/-- `Parser.parse` (lines 297–312): parse the whole string; if input
remains, report an unmatched end character (or the defensive
`unexpected unconsumed input` error).  The fuel `2 * |s| + 2` bounds the
number of loop iterations and nested-parser entries (each either
consumes a character or is a final break), so it is never exhausted. -/
def parserParse (lang : Language) (alphabet : List Char) (s : List Char) :
    Except PyExc Ast :=
  let inp := mkInput s
  match parseExpression lang alphabet (2 * s.length + 2) inp none with
  | .error e => .error e
  | .ok (result, inp) =>
    match inp.lookahead1 with
    | none => .ok result
    | some _ =>
      match inp.next1 with
      | none => .error .stopIteration
      | some (character, inp) =>
        if character ∈ lang.endCharacters then
          .error (.parserError (("found unmatched ").toList ++ [character])
            (inp.annotated inp.position))
        else
          .error (.parserError
            (("unexpected unconsumed input, " ++
              "please report this as a bug").toList)
            (inp.annotated inp.position))

/-- `parse(string)` (lines 443–444) with the default language.  The
default alphabet (every Unicode code point below `sys.maxunicode`) is
embedded as the scalar values representable by the Lean `Char` type; no verified
claim forces this value. -/
def DEFAULT_ALPHABET : List Char :=
  (List.range 1114111).filterMap fun i =>
    if i < 0xd800 ∨ 0xe000 ≤ i then some (Char.ofNat i) else none

def parse (s : List Char) : Except PyExc Ast :=
  parserParse DEFAULT_LANGUAGE DEFAULT_ALPHABET s

/-! ### Finite automata (`prototypes/regex/fa.py`)

NFA states are arena-allocated: the arena is a list of state records and
a state is its index, in allocation order (the Python objects are
allocated in exactly the order embedded here).  `movements` is the
deterministic edge dictionary (keys are unique, so association-list
lookup matches dictionary lookup; the unordered dict iteration of Python
cannot change any `match` result because every movement of one state
maps duplicate-free keys), `epsilon_moves` the ordered epsilon edge
list. -/

structure NFAStateData : Type where
  movements : List (Char × Nat)
  epsilon_moves : List Nat
  is_final : Bool
  deriving DecidableEq, Repr

instance : Inhabited NFAStateData := ⟨⟨[], [], false⟩⟩

def getNFAState (arena : List NFAStateData) (sid : Nat) : NFAStateData :=
  arena.getD sid default

/-- Flatten the characters denoted by an `Either`/`Neither` item:
a `Character` is itself; a `Range` iterates the code points from its
start to its end inclusive, keeping those in the alphabet stored in the range
(`Range.__iter__`, `prototypes/regex/ast.py` lines 300–304).  A range
whose start is itself a range has no `raw` attribute and raises
`AttributeError` in Python; no parser output contains one and no claim
below builds one, so that case is embedded as the empty expansion. -/
def flattenEItem : EItem → List Char
  | .echr c => [c]
  | .erng (.echr startc) endc alphabet =>
      ((List.range' startc.toNat (endc.toNat + 1 - startc.toNat)).map
        Char.ofNat).filter (· ∈ alphabet)
  | .erng (.erng _ _ _) _ _ => []

/-- Thompson construction: the `to_nfa` methods of
`prototypes/regex/ast.py`, with explicit arena passing.  Returns the
extended arena and the `(start, final)` state ids of the fragment.
State allocation order and the in-place updates of `epsilon_moves` /
`is_final` follow the source line by line. -/
def toNFAAux : Ast → List NFAStateData → (List NFAStateData × Nat × Nat)
  | .epsilon, arena =>
      let finalId := arena.length
      let arena := arena ++ [⟨[], [], true⟩]
      let startId := arena.length
      let arena := arena ++ [⟨[], [finalId], false⟩]
      (arena, startId, finalId)
  | .any alphabet, arena =>
      let finalId := arena.length
      let arena := arena ++ [⟨[], [], true⟩]
      let startId := arena.length
      let arena := arena ++ [⟨alphabet.map fun c => (c, finalId), [], false⟩]
      (arena, startId, finalId)
  | .chr c, arena =>
      let finalId := arena.length
      let arena := arena ++ [⟨[], [], true⟩]
      let startId := arena.length
      let arena := arena ++ [⟨[(c, finalId)], [], false⟩]
      (arena, startId, finalId)
  | .concat l r, arena =>
      let (arena, leftStart, leftFinal) := toNFAAux l arena
      let (arena, rightStart, rightFinal) := toNFAAux r arena
      let lf := getNFAState arena leftFinal
      let arena := arena.set leftFinal
        { lf with epsilon_moves := lf.epsilon_moves ++ [rightStart],
                  is_final := false }
      (arena, leftStart, rightFinal)
  | .union l r, arena =>
      let (arena, leftStart, leftFinal) := toNFAAux l arena
      let (arena, rightStart, rightFinal) := toNFAAux r arena
      let startId := arena.length
      let arena := arena ++ [⟨[], [leftStart, rightStart], false⟩]
      let finalId := arena.length
      let arena := arena ++ [⟨[], [], true⟩]
      let lf := getNFAState arena leftFinal
      let arena := arena.set leftFinal
        { lf with epsilon_moves := lf.epsilon_moves ++ [finalId],
                  is_final := false }
      let rf := getNFAState arena rightFinal
      let arena := arena.set rightFinal
        { rf with epsilon_moves := rf.epsilon_moves ++ [finalId],
                  is_final := false }
      (arena, startId, finalId)
  | .rep x, arena =>
      let (arena, repStart, repFinal) := toNFAAux x arena
      let finalId := arena.length
      let arena := arena ++ [⟨[], [], true⟩]
      let startId := arena.length
      let arena := arena ++ [⟨[], [repStart, finalId], false⟩]
      let rf := getNFAState arena repFinal
      let arena := arena.set repFinal
        { rf with is_final := false,
                  epsilon_moves := rf.epsilon_moves ++ [startId] }
      (arena, startId, finalId)
  | .group x, arena => toNFAAux x arena
  | .either items, arena =>
      let characters := (items.map flattenEItem).flatten
      let finalId := arena.length
      let arena := arena ++ [⟨[], [], true⟩]
      let startId := arena.length
      let arena := arena ++ [⟨characters.eraseDups.map fun c => (c, finalId),
                              [], false⟩]
      (arena, startId, finalId)
  | .neither items alphabet, arena =>
      let excluded := (items.map flattenEItem).flatten
      let characters := alphabet.filter (· ∉ excluded)
      let finalId := arena.length
      let arena := arena ++ [⟨[], [], true⟩]
      let startId := arena.length
      let arena := arena ++ [⟨characters.eraseDups.map fun c => (c, finalId),
                              [], false⟩]
      (arena, startId, finalId)

def epsSucc (arena : List NFAStateData) (sid : Nat) : List Nat :=
  (getNFAState arena sid).epsilon_moves

def epsClosureStep (arena : List NFAStateData) (seen : List Nat) :
    List Nat :=
  (seen ++ seen.flatMap (epsSucc arena)).eraseDups

def iterateN (f : α → α) : Nat → α → α
  | 0, x => x
  | n + 1, x => iterateN f n (f x)

/-- All states reachable from the states of `init` by zero or more
epsilon moves.  `arena.length` rounds of one-step expansion reach the
fixpoint because every reachable state is at epsilon distance below the
number of states. -/
def epsReachFrom (arena : List NFAStateData) (init : List Nat) :
    List Nat :=
  iterateN (epsClosureStep arena) arena.length init

/-- `NFAState.epsilon_transition` with a fresh visited set
(`prototypes/regex/fa.py` lines 208–214): the states reachable by one or
more epsilon moves (the depth-first accumulation visits exactly those,
and never the origin itself unless a cycle returns to it). -/
def epsTransitionOf (arena : List NFAStateData) (sid : Nat) : List Nat :=
  epsReachFrom arena (epsSucc arena sid)

/-- `NFAState.epsilon_closure` (lines 216–223): the state itself plus
everything epsilon-reachable from it. -/
def closureOf (arena : List NFAStateData) (sid : Nat) : List Nat :=
  epsReachFrom arena [sid]

/-- `contains_final(states)` (lines 14–15). -/
def containsFinal (arena : List NFAStateData) (states : List Nat) : Bool :=
  states.any fun sid => (getNFAState arena sid).is_final

/-- `NFAState.transition` (lines 199–206): the direct movement on the
character, followed by the transitions of every state reachable by one
or more epsilon moves — a recursion through `epsilon_transition` that
Python re-enters per reached state (and that does not terminate on
epsilon cycles, hence the fuel; `none` is the nonterminating case,
never reached at the fuels used below). -/
def nfaStateTransition (arena : List NFAStateData) :
    Nat → Nat → Char → Option (List Nat)
  | 0, _, _ => none
  | fuel + 1, sid, c =>
    let direct :=
      match (getNFAState arena sid).movements.lookup c with
      | some t => [t]
      | none => []
    match (epsTransitionOf arena sid).mapM
        (fun t => nfaStateTransition arena fuel t c) with
    | none => none
    | some rest => some (direct ++ rest.flatten)

/-- `flatten(state.transition(character) for state in states)`
(`NFA.match` line 67). -/
def statesTransition (arena : List NFAStateData) (fuel : Nat)
    (states : List Nat) (c : Char) : Option (List Nat) :=
  match states.mapM (fun sid => nfaStateTransition arena fuel sid c) with
  | none => none
  | some parts => some parts.flatten

/-- Loop of `NFA.match` (lines 63–75): advance the active state list by
`transition(c)`; when it contains a final state record the current
0-based index `i`; when it is empty break (the code after the loop then
flattens the epsilon transitions of an empty list, changing nothing).
After the whole string, take the epsilon transitions of the active
states and, on a final among them, record `len(string)`. -/
def nfaMatchGo (arena : List NFAStateData) (fuel : Nat) :
    List Char → Nat → List Nat → Option Nat → Option (Option Nat)
  | [], i, states, last =>
      let states := states.flatMap (epsTransitionOf arena)
      some (if containsFinal arena states then some i else last)
  | c :: rest, i, states, last =>
      match statesTransition arena fuel states c with
      | none => none
      | some states' =>
        if containsFinal arena states' then
          nfaMatchGo arena fuel rest (i + 1) states' (some i)
        else if states' = [] then
          some last
        else
          nfaMatchGo arena fuel rest (i + 1) states' last

/-- `NFA.match(string)`: start from `[self.start]` with no recorded
success. -/
def nfaMatch (arena : List NFAStateData) (start : Nat) (fuel : Nat)
    (s : List Char) : Option (Option Nat) :=
  nfaMatchGo arena fuel s 0 [start] none

/-! ### Subset construction and DFA table (`prototypes/regex/fa.py`) -/

structure DFAStateData : Type where
  movements : List (Char × Nat)
  is_final : Bool
  deriving DecidableEq, Repr

instance : Inhabited DFAStateData := ⟨⟨[], false⟩⟩

def getDFAState (states : List DFAStateData) (sid : Nat) : DFAStateData :=
  states.getD sid default

/-- Canonical form of an epsilon closure used as interning key: Python
interns closures as `frozenset`s; two closures are the same key exactly
when they hold the same state ids, which the sorted duplicate-free list
captures. -/
def canonKey (l : List Nat) : List Nat :=
  l.eraseDups.insertionSort (· ≤ ·)

/-- One union step of `NFA._get_movements_to_closures` (lines 53–61):
`movements[movement] |= transition_state.epsilon_closure()`, inserting
new keys at the end. -/
def addMovement (acc : List (Char × List Nat)) (c : Char)
    (clo : List Nat) : List (Char × List Nat) :=
  match acc.lookup c with
  | some old => acc.map fun p => if p.1 = c then (c, canonKey (old ++ clo)) else p
  | none => acc ++ [(c, canonKey clo)]

/-- `NFA._get_movements_to_closures(closure)`: for every member state of
the closure and every deterministic movement, union the epsilon closure
of the target into the entry of that movement character. -/
def movementsToClosures (arena : List NFAStateData)
    (closure : List Nat) : List (Char × List Nat) :=
  closure.foldl
    (fun acc sid =>
      (getNFAState arena sid).movements.foldl
        (fun acc mv => addMovement acc mv.1 (closureOf arena mv.2))
        acc)
    []

def keyIndex (keys : List (List Nat)) (k : List Nat) : Nat :=
  keys.findIdx (· = k)

/-- Worklist loop of `NFA.to_dfa` (lines 30–48).  `keys` lists the
interned closures in creation order (a DFA state is its index in
`keys`), `dstates` the corresponding records whose movement maps are
filled in as their source states are processed, `queue` the unprocessed
`(state, closure)` pairs.  The fuel bounds the loop; `none` means it was
exhausted with work remaining (the fuels used below are checked to
suffice by evaluation).  The `final_states` list the Python constructor
also accumulates is not consulted by `DFA.match` or `to_dfa_table`,
which read `is_final` flags, and is dropped. -/
def toDFAGo (arena : List NFAStateData) :
    Nat → List (List Nat) → List DFAStateData → List (Nat × List Nat) →
    Option (List DFAStateData)
  | _, _, dstates, [] => some dstates
  | 0, _, _, _ :: _ => none
  | fuel + 1, keys, dstates, (sid, closure) :: queue =>
    let step :=
      (movementsToClosures arena closure).foldl
        (fun (st : List (List Nat) × List DFAStateData ×
              List (Nat × List Nat)) mv =>
          let (keys, dstates, queue) := st
          let tclo := mv.2
          let (keys, dstates, queue) :=
            if tclo ∈ keys then (keys, dstates, queue)
            else
              (keys ++ [tclo],
               dstates ++ [⟨[], containsFinal arena tclo⟩],
               queue ++ [(keys.length, tclo)])
          let tid := keyIndex keys tclo
          let cur := getDFAState dstates sid
          let dstates := dstates.set sid
            { cur with movements := cur.movements ++ [(mv.1, tid)] }
          (keys, dstates, queue))
        (keys, dstates, queue)
    toDFAGo arena fuel step.1 step.2.1 step.2.2

/-- `NFA.to_dfa`: start from the epsilon closure of the start state. -/
def toDFA (arena : List NFAStateData) (startSid : Nat) (fuel : Nat) :
    Option (List DFAStateData) :=
  let c0 := closureOf arena startSid
  toDFAGo arena fuel [c0] [⟨[], containsFinal arena c0⟩] [(0, c0)]

/-- Loop of `DFA.match` (lines 109–120): follow single transitions; on a
missing edge break and return the last recorded index; on a final state
record the current 0-based index.  When the loop consumes the whole
string without breaking, the `for`/`else` clause *overwrites* the
result with `0` if the end-of-loop state is final and `None` otherwise. -/
def dfaMatchGo (states : List DFAStateData) :
    List Char → Nat → Nat → Option Nat → Option Nat
  | [], _, sid, _ =>
      if (getDFAState states sid).is_final then some 0 else none
  | c :: rest, i, sid, last =>
      match (getDFAState states sid).movements.lookup c with
      | none => last
      | some sid' =>
          dfaMatchGo states rest (i + 1) sid'
            (if (getDFAState states sid').is_final then some i else last)

/-- `DFA.match(string)`: start at the start state (index 0). -/
def dfaMatch (states : List DFAStateData) (s : List Char) : Option Nat :=
  dfaMatchGo states s 0 0 none

/-- Worklist loop of `DFA.to_dfa_table` (lines 90–107): breadth-first
from the start state, assigning table indices in discovery order;
`ids` maps a DFA state (by its index in `states`) to its table index;
each discovered state appends an empty row and, when final, its index to
the final set. -/
def toDFATableGo (states : List DFAStateData) :
    Nat → List (List (Char × Nat)) → List (Nat × Nat) → List Nat →
    List Nat → Option (List (List (Char × Nat)) × List Nat)
  | _, table, _, finals, [] => some (table, finals)
  | 0, _, _, _, _ :: _ => none
  | fuel + 1, table, ids, finals, sid :: queue =>
    let step :=
      (getDFAState states sid).movements.foldl
        (fun (st : List (List (Char × Nat)) × List (Nat × Nat) ×
              List Nat × List Nat) mv =>
          let (table, ids, finals, queue) := st
          let t := mv.2
          let (table, ids, finals, queue) :=
            match ids.lookup t with
            | some _ => (table, ids, finals, queue)
            | none =>
                let newId := table.length
                (table ++ [[]],
                 ids ++ [(t, newId)],
                 if (getDFAState states t).is_final then finals ++ [newId]
                 else finals,
                 queue ++ [t])
          let rowId := (ids.lookup sid).getD 0
          let row := table.getD rowId []
          let table := table.set rowId (row ++ [(mv.1, (ids.lookup t).getD 0)])
          (table, ids, finals, queue))
        (table, ids, finals, queue)
    toDFATableGo states fuel step.1 step.2.1 step.2.2.1 step.2.2.2

/-- `DFA.to_dfa_table`: table row 0 is the start state; the start index
is final when the start state is. -/
def toDFATable (states : List DFAStateData) (fuel : Nat) :
    Option (List (List (Char × Nat)) × List Nat) :=
  toDFATableGo states fuel [[]] [(0, 0)]
    (if (getDFAState states 0).is_final then [0] else []) [0]

/-- Loop of `DFATable.match` (lines 135–149): like `DFA.match` over
integer indices; a `KeyError` on the row lookup breaks; the
`for`/`else` clause overwrites the result with `0`/`None` exactly as in
`DFA.match`. -/
def tableMatchGo (table : List (List (Char × Nat))) (finals : List Nat) :
    List Char → Nat → Nat → Option Nat → Option Nat
  | [], _, state, _ => if state ∈ finals then some 0 else none
  | c :: rest, i, state, last =>
      match (table.getD state []).lookup c with
      | none => last
      | some state' =>
          tableMatchGo table finals rest (i + 1) state'
            (if state' ∈ finals then some i else last)

/-- `DFATable.match(string)`: start at index 0. -/
def tableMatch (table : List (List (Char × Nat))) (finals : List Nat)
    (s : List Char) : Option Nat :=
  tableMatchGo table finals s 0 0 none

/-! ### Matcher contract (`prototypes/regex/matcher.py`)

`find`/`find_all` are derived from `match` only, so they are embedded
generically over a match function `List Char → Option Nat`.  `Span` is
the `(start, end)` named tuple; its second field is named `stop` here
because `end` is reserved in Lean. -/

structure Span : Type where
  start : Nat
  stop : Nat
  deriving DecidableEq, Repr

structure Find : Type where
  string : List Char
  span : Span
  deriving DecidableEq, Repr

/-- Loop of `MatcherBase.find` with the remaining iteration count
`s.length + 1 - offset` made explicit for structural recursion: the
count is zero exactly when the guard `len(string) >= offset` fails. -/
def findAux (m : List Char → Option Nat) (s : List Char) :
    Nat → Nat → Option Find
  | 0, _ => none
  | k + 1, offset =>
      match m (s.drop offset) with
      | some e => some ⟨s, ⟨offset, offset + e⟩⟩
      | none => findAux m s k (offset + 1)

/-- `MatcherBase.find(string, offset)` (lines 23–31): while
`len(string) >= offset`, try `match(string[offset:])`; on success return
`Find(string, Span(offset, offset + end))`, otherwise advance the
offset by one; falling off the loop returns `None`.  The iteration
count of `findAux` starts at `s.length + 1 - offset`, which decreases by
one as `offset` increases by one and is zero exactly when the loop
guard fails. -/
def findFrom (m : List Char → Option Nat) (s : List Char) (offset : Nat) :
    Option Find :=
  findAux m s (s.length + 1 - offset) offset

/-- The `n`-th emission of the `MatcherBase.find_all(string, offset)`
generator (lines 33–40): emission 0 is `find(string, offset)`, and after
emitting `f` the next candidate is `find(string, offset + f.span.end)`
(the generator adds the original `offset` to the span end).  The
generator ends exactly at the first `None`. -/
def nthFind (m : List Char → Option Nat) (s : List Char) (offset : Nat) :
    Nat → Option Find
  | 0 => findFrom m s offset
  | n + 1 =>
      match nthFind m s offset n with
      | none => none
      | some f => findFrom m s (offset + f.span.stop)

/-! ### Tokenizer (`prototypes/regex/tokenizer.py`)

A tokenizer holds an ordered list of definitions; each definition is a
compiled matcher together with a token class.  The matcher enters the
tokenizer only through its `match` method, so a definition is embedded
as a match function paired with a tag standing for the token class. -/

structure Token : Type where
  tag : Nat
  lexeme : List Char
  span : Span
  deriving DecidableEq, Repr

/-- `TokenizerError(reason, position)`. -/
structure TokErr : Type where
  reason : List Char
  position : Nat
  deriving DecidableEq, Repr

/-- The reason string `"string cannot be further consumed at position
%d" % start`. -/
def cannotConsumeReason (start : Nat) : List Char :=
  ("string cannot be further consumed at position ").toList ++
    (toString start).toList

abbrev TokDefs := List ((List Char → Option Nat) × Nat)

/-- `Tokenizer.match_token(string, start)` (lines 55–63): try the
definitions in order; the first whose match is non-`None` yields the
token over the matched prefix together with the rest of the string and
the advanced cursor. -/
def matchToken (defs : TokDefs) (s : List Char) (start : Nat) :
    Option (Token × List Char × Nat) :=
  match defs with
  | [] => none
  | (m, tag) :: rest =>
      match m s with
      | some e => some (⟨tag, s.take e, ⟨start, start + e⟩⟩,
                        s.drop e, start + e)
      | none => matchToken rest s start

/-- Loop of `Tokenizer.__call__` (lines 43–53), fuel-indexed because a
zero-length match repeats the loop on an unchanged string: while the
string is non-empty, match a token (yielding it) or raise
`TokenizerError`; the result pairs the tokens yielded before
termination with the error, if any.  `none` is the exhausted-fuel case
(an infinite Python loop). -/
def tokenizeGo (defs : TokDefs) :
    Nat → List Char → Nat → Option (List Token × Option TokErr)
  | 0, _, _ => none
  | fuel + 1, s, start =>
    if s = [] then some ([], none)
    else
      match matchToken defs s start with
      | none => some ([], some ⟨cannotConsumeReason start, start⟩)
      | some (tok, s', start') =>
          match tokenizeGo defs fuel s' start' with
          | none => none
          | some (toks, err) => some (tok :: toks, err)

/-- The scan relation of the tokenizer: `Scan defs s start toks s' P`
holds when, starting from string `s` at cursor `start`, successive
successful `match_token` steps emit exactly the tokens `toks` and leave
the scanner at string `s'` and cursor `P`. -/
inductive Scan (defs : TokDefs) :
    List Char → Nat → List Token → List Char → Nat → Prop
  | refl (s : List Char) (start : Nat) : Scan defs s start [] s start
  | step {s : List Char} {start : Nat} {tok : Token} {s' : List Char}
      {start' : Nat} {toks : List Token} {s'' : List Char} {start'' : Nat}
      (hne : s ≠ [])
      (h : matchToken defs s start = some (tok, s', start'))
      (rest : Scan defs s' start' toks s'' start'') :
      Scan defs s start (tok :: toks) s'' start''

/-! ### Concrete compiled instances used by the theorems below -/

/-- The AST of the regex `ab` (what `parse(u"ab")` produces). -/
def abAst : Ast := .concat (.chr 'a') (.chr 'b')

def abNFA : List NFAStateData × Nat × Nat := toNFAAux abAst []

def abArena : List NFAStateData := abNFA.1

def abStart : Nat := abNFA.2.1

def abDFAStates : List DFAStateData := (toDFA abArena abStart 32).getD []

def abTable : List (List (Char × Nat)) × List Nat :=
  (toDFATable abDFAStates 32).getD ([], [])

/-- The AST of the regex `a`. -/
def aAst : Ast := .chr 'a'

def aNFA : List NFAStateData × Nat × Nat := toNFAAux aAst []

def aArena : List NFAStateData := aNFA.1

def aStart : Nat := aNFA.2.1

def aDFAStates : List DFAStateData := (toDFA aArena aStart 32).getD []

def aTable : List (List (Char × Nat)) × List Nat :=
  (toDFATable aDFAStates 32).getD ([], [])

/-- The compiled NFA of the `Epsilon` regex. -/
def epsNFA : List NFAStateData × Nat × Nat := toNFAAux .epsilon []

def epsArena : List NFAStateData := epsNFA.1

def epsStart : Nat := epsNFA.2.1

/-- The compiled NFA of the regex `a*` (AST `Repetition(Character(a))`),
whose language contains the empty string. -/
def starNFA : List NFAStateData × Nat × Nat := toNFAAux (.rep (.chr 'a')) []

def starArena : List NFAStateData := starNFA.1

def starStart : Nat := starNFA.2.1

/-- `NFA.match` of the compiled `a*` as a plain match function for the
generic `find`/`find_all` of `MatcherBase`.  The fuel 10 is enough for
every recursion of `NFAState.transition` on this four-state machine (the
evaluations in the theorems below would otherwise not produce `some`
results). -/
def starMatchFn (s : List Char) : Option Nat :=
  (nfaMatch starArena starStart 10 s).join

/-- A matcher that never matches, used to exercise the tokenizer error
path. -/
def alwaysNoneMatcher : List Char → Option Nat := fun _ => none

/-! ## Theorems -/

/-- C4: the claim says `(a + b)[i]` returns `a[i]` for `i < |a|` and
`b[i − |a|]` otherwise, without raising.  The code instead raises
`ValueError` for *every* in-range index: its guard `if len(self) >
index: raise ValueError()` fires exactly when `i < |a| + |b|`.  This
theorem proves that every valid index of a concatenation errors. -/
theorem concat_getitem_always_value_error (a b : RopeT) (i : Nat)
    (h : i < ropeLen (.concat a b)) :
    getitem (.concat a b) i = .error .valueError := by
  unfold getitem
  simp only [gt_iff_lt]
  rw [if_pos h]

/-- Witness for `concat_getitem_always_value_error`: the scenario of
spec section 8, `(rope("ab") + rope("cd"))[2]` (supposed to be `'c'`) raises
`ValueError`. -/
theorem concat_getitem_always_value_error_witness :
    2 < ropeLen (.concat (.str (("ab").toList)) (.str (("cd").toList))) ∧
      getitem (.concat (.str (("ab").toList)) (.str (("cd").toList))) 2 =
        .error .valueError :=
  ⟨by decide,
   concat_getitem_always_value_error (.str (("ab").toList))
     (.str (("cd").toList)) 2 (by decide)⟩

/-- C5: the claim says rope equality holds iff the code-point sequences
are equal, and in particular ropes of different lengths are never equal.
`Rope.__eq__` zips the sequences without a length check, so the rope
`"a"` compares equal to the rope `"ab"` although their sequences
differ. -/
theorem ropeEq_ignores_length_difference :
    ropeEq (.str (("a").toList)) (.str (("ab").toList)) = true ∧
      ropeToList (.str (("a").toList)) ≠ ropeToList (.str (("ab").toList)) := by
  decide

/-- C7: the claim (and the docstring of `Insert` itself) says
`Insert(3, "BAR").undo() == Delete(3, "BAR")`.  The code of
`Insert.undo` evaluates `Delete(self.position, self.string)` and no
attribute `position` exists, so the call raises `AttributeError`
(embedded as the error case) instead of returning the delete;
`Delete.undo` does return the corresponding insert. -/
theorem insert_undo_attribute_error :
    Op.undo (.insert 3 (("BAR").toList)) = .error () ∧
      Op.undo (.delete 3 (("BAR").toList)) = .ok (.insert 3 (("BAR").toList)) :=
  ⟨rfl, rfl⟩

/-- C10: `Repetition.__getitem__` performs no bound check against
`len(self)`: for every index `i` — including `i ≥ |r|` — it delegates to
the inner rope at `i mod |inner|`, and on a string leaf that position is
always in range, so no error is raised. -/
theorem repetition_getitem_wraps (t i : Nat) (x : RopeT)
    (h : 0 < ropeLen x) :
    getitem (.rep t x) i = getitem x (i % ropeLen x) ∧
      (∀ d : List Char, x = .str d →
        (getitem (.rep t x) i).isOk = true) := by
  constructor
  · rw [show getitem (.rep t x) i =
        (if ropeLen x = 0 then .error .zeroDivisionError
         else getitem x (i % ropeLen x)) from rfl]
    rw [if_neg (by omega)]
  · intro d hd
    subst hd
    have hlen : 0 < d.length := h
    have hm : i % d.length < d.length := Nat.mod_lt _ hlen
    rw [show getitem (.rep t (.str d)) i =
        (if ropeLen (.str d) = 0 then .error .zeroDivisionError
         else getitem (.str d) (i % ropeLen (.str d))) from rfl]
    rw [if_neg (by simp only [ropeLen]; omega)]
    rw [show getitem (.str d) (i % ropeLen (.str d)) =
        (if hlt : i % ropeLen (.str d) < d.length
         then .ok (d.get ⟨i % ropeLen (.str d), hlt⟩)
         else .error .indexError) from rfl]
    rw [dif_pos (by simpa [ropeLen] using hm)]
    rfl

/-- Witness for `repetition_getitem_wraps`: indexing `2 * rope("ab")` at
the out-of-range index 5 wraps to index 1 of the leaf and succeeds. -/
theorem repetition_getitem_wraps_witness :
    0 < ropeLen (.str (("ab").toList)) ∧
      (getitem (.rep 2 (.str (("ab").toList))) 5 =
          getitem (.str (("ab").toList)) (5 % ropeLen (.str (("ab").toList))) ∧
        (∀ d : List Char, RopeT.str (("ab").toList) = .str d →
          (getitem (.rep 2 (.str (("ab").toList))) 5).isOk = true)) :=
  ⟨by decide, repetition_getitem_wraps 2 5 (.str (("ab").toList)) (by decide)⟩

/-- C6 counterexample: the claim asserts TP1 for every pair of
concurrent inserts *including equal start positions*.  For
`I1 = Insert(0, "a")`, `I2 = Insert(0, "b")` on the empty document,
`Insert._include_insert` shifts whichever insert is transformed (its
guard is `self.start >= other.start`), so one order produces `ab` and
the other `ba`. -/
theorem insert_insert_tp1_fails_at_equal_starts :
    applyOps (applyOp [] (.insert 0 (("a").toList)))
        (insertIncludeInsert 0 (("b").toList) (.insert 0 (("a").toList))) ≠
      applyOps (applyOp [] (.insert 0 (("b").toList)))
        (insertIncludeInsert 0 (("a").toList) (.insert 0 (("b").toList))) := by
  decide

/-- C1: the claim (and `tests.py`, which expects every matcher to return
2 here) says the three compiled matchers agree.  On the regex `ab` and
the input `"ab"` they do not: `NFA.match` returns 1 while `DFA.match`
and `DFATable.match` return 0 (their `for`/`else` clause overwrites the
recorded index with `0` on a fully consumed input).  The `isSome`
conjuncts record that the subset-construction and table worklists
completed within their fuel. -/
theorem matchers_disagree_on_ab :
    nfaMatch abArena abStart 10 (("ab").toList) = some (some 1) ∧
      (toDFA abArena abStart 32).isSome = true ∧
      dfaMatch abDFAStates (("ab").toList) = some 0 ∧
      (toDFATable abDFAStates 32).isSome = true ∧
      tableMatch abTable.1 abTable.2 (("ab").toList) = some 0 := by
  refine ⟨?_, ?_, ?_, ?_, ?_⟩ <;> rfl

/-- C2: the claim says `match(s)` returns the greatest `i` with
`s[0:i]` in the language (so regex `a` on `"a"` must give 1, as
the docstring in `matcher.py` and `tests.py` also demand) and that the
`Epsilon` regex returns 0 on every string.  All three matchers return 0
for regex `a` on `"a"` (they record the 0-based index of the last
matching character instead of the prefix length), and the `Epsilon` NFA
returns `None` on `"a"` (the active set empties and the loop breaks
before the final epsilon scan). -/
theorem match_returns_wrong_end_offsets :
    nfaMatch aArena aStart 10 (("a").toList) = some (some 0) ∧
      (toDFA aArena aStart 32).isSome = true ∧
      dfaMatch aDFAStates (("a").toList) = some 0 ∧
      (toDFATable aDFAStates 32).isSome = true ∧
      tableMatch aTable.1 aTable.2 (("a").toList) = some 0 ∧
      nfaMatch epsArena epsStart 10 (("a").toList) = some none := by
  refine ⟨?_, ?_, ?_, ?_, ?_, ?_⟩ <;> rfl

/-- C3: the claim says `find_all` emits finitely many finds on a regex
whose language contains the empty string, a zero-length find only as
the first of the scan, and stops after it.  With the compiled `a*` and
the input `"b"`, `find_all` emits the zero-length find `(1, 1)` at
*every* position of the stream — the generator restarts `find` at
`offset + span.end`, which reproduces the same find forever, so the
stream is infinite.  On the input `"ba"` the zero-length find `(2, 2)`
is emitted as the *second* find and the scan still does not stop after
it. -/
theorem find_all_zero_length_repeats_forever :
    (∀ n : Nat, nthFind starMatchFn (("b").toList) 0 n =
        some ⟨("b").toList, ⟨1, 1⟩⟩) ∧
      nthFind starMatchFn (("ba").toList) 0 0 = some ⟨("ba").toList, ⟨1, 2⟩⟩ ∧
      nthFind starMatchFn (("ba").toList) 0 1 = some ⟨("ba").toList, ⟨2, 2⟩⟩ ∧
      nthFind starMatchFn (("ba").toList) 0 2 = some ⟨("ba").toList, ⟨2, 2⟩⟩ := by
  refine ⟨?_, rfl, rfl, rfl⟩
  intro n
  induction n with
  | zero => rfl
  | succ n ih =>
      show (match nthFind starMatchFn (("b").toList) 0 n with
            | none => none
            | some f => findFrom starMatchFn (("b").toList) (0 + f.span.stop)) =
          some ⟨("b").toList, ⟨1, 1⟩⟩
      rw [ih]
      rfl

/-- Core of the insert/insert convergence argument on a document
decomposed as `a ++ (m ++ b)` around the two insertion points. -/
theorem applyInsert_comm_core (a m b s1 s2 : List Char) (p1 p2 : Nat)
    (ha : a.length = p1) (hm : m.length = p2 - p1) (hlt : p1 < p2) :
    applyInsert (applyInsert (a ++ (m ++ b)) p1 s1) (p2 + s1.length) s2 =
      applyInsert (applyInsert (a ++ (m ++ b)) p2 s2) p1 s1 := by
  have A1 : (a ++ (m ++ b)).take p1 = a := List.take_left' ha
  have A2 : (a ++ (m ++ b)).drop p1 = m ++ b := List.drop_left' ha
  have A3 : (m ++ b).take (p2 - p1) = m := List.take_left' hm
  have A4 : (m ++ b).drop (p2 - p1) = b := List.drop_left' hm
  have e1 : p2 + s1.length - (a ++ s1).length = p2 - p1 := by
    simp [ha]; omega
  have B1 : ((a ++ s1) ++ (m ++ b)).take (p2 + s1.length) = (a ++ s1) ++ m := by
    rw [List.take_append_eq_append_take,
        List.take_of_length_le (by simp [ha]; omega), e1, A3]
  have B2 : ((a ++ s1) ++ (m ++ b)).drop (p2 + s1.length) = b := by
    rw [List.drop_append_eq_append_drop,
        List.drop_eq_nil_of_le (by simp [ha]; omega), e1, A4,
        List.nil_append]
  have e2 : p2 - a.length = p2 - p1 := by rw [ha]
  have C1 : (a ++ (m ++ b)).take p2 = a ++ m := by
    rw [List.take_append_eq_append_take,
        List.take_of_length_le (by omega), e2, A3]
  have C2 : (a ++ (m ++ b)).drop p2 = b := by
    rw [List.drop_append_eq_append_drop,
        List.drop_eq_nil_of_le (by omega), e2, A4, List.nil_append]
  have D1 : ((a ++ m ++ s2) ++ b).take p1 = a := by
    rw [List.append_assoc, List.append_assoc, List.take_left' ha]
  have D2 : ((a ++ m ++ s2) ++ b).drop p1 = m ++ (s2 ++ b) := by
    rw [List.append_assoc, List.append_assoc, List.drop_left' ha]
  simp only [applyInsert, A1, A2, B1, B2, C1, C2, D1, D2]
  simp [List.append_assoc]

/-- Insert/insert convergence for `p1 < p2`, in terms of the
`Insert._include_insert` and the spec-modelled application. -/
theorem insert_insert_comm_of_lt (d : List Char) (p1 p2 : Nat)
    (s1 s2 : List Char) (hlt : p1 < p2) (h2 : p2 ≤ d.length) :
    applyOps (applyOp d (.insert p1 s1))
        (insertIncludeInsert p2 s2 (.insert p1 s1)) =
      applyOps (applyOp d (.insert p2 s2))
        (insertIncludeInsert p1 s1 (.insert p2 s2)) := by
  obtain ⟨a, m, b, ha, hm, rfl⟩ :
      ∃ a m b, a.length = p1 ∧ m.length = p2 - p1 ∧ d = a ++ (m ++ b) :=
    ⟨d.take p1, (d.drop p1).take (p2 - p1), (d.drop p1).drop (p2 - p1),
     by rw [List.length_take]; omega,
     by rw [List.length_take, List.length_drop]; omega,
     by rw [List.take_append_drop, List.take_append_drop]⟩
  have hini : insertIncludeInsert p2 s2 (.insert p1 s1) =
      [.insert (p2 + s1.length) s2] := by
    unfold insertIncludeInsert
    simp only [Op.start, Op.length]
    rw [if_pos (show p2 ≥ p1 from Nat.le_of_lt hlt)]
  have hini' : insertIncludeInsert p1 s1 (.insert p2 s2) =
      [.insert p1 s1] := by
    unfold insertIncludeInsert
    simp only [Op.start, Op.length]
    rw [if_neg (show ¬p1 ≥ p2 from Nat.not_le.mpr hlt)]
  rw [hini, hini']
  show applyOp (applyOp (a ++ (m ++ b)) (.insert p1 s1))
      (.insert (p2 + s1.length) s2) =
    applyOp (applyOp (a ++ (m ++ b)) (.insert p2 s2)) (.insert p1 s1)
  unfold applyOp
  exact applyInsert_comm_core a m b s1 s2 p1 p2 ha hm hlt

/-- C6 (amended): the transformation property TP1 does hold for every
pair of concurrent inserts with *distinct* start positions: applying
`I1` and then `I2.include(I1)` equals applying `I2` and then
`I1.include(I2)`.  (At equal start positions it fails; see the
counterexample theorem.) -/
theorem insert_insert_tp1_distinct_starts (d : List Char) (p1 p2 : Nat)
    (s1 s2 : List Char) (h1 : p1 ≤ d.length) (h2 : p2 ≤ d.length)
    (hne : p1 ≠ p2) :
    applyOps (applyOp d (.insert p1 s1))
        (insertIncludeInsert p2 s2 (.insert p1 s1)) =
      applyOps (applyOp d (.insert p2 s2))
        (insertIncludeInsert p1 s1 (.insert p2 s2)) := by
  rcases Nat.lt_or_ge p1 p2 with hlt | hge
  · exact insert_insert_comm_of_lt d p1 p2 s1 s2 hlt h2
  · have hlt : p2 < p1 := by omega
    exact (insert_insert_comm_of_lt d p2 p1 s2 s1 hlt h1).symm

/-- Witness for `insert_insert_tp1_distinct_starts`: concurrent inserts
at positions 0 and 1 of the document `"xy"` converge. -/
theorem insert_insert_tp1_distinct_starts_witness :
    0 ≤ (("xy").toList).length ∧ 1 ≤ (("xy").toList).length ∧ 0 ≠ 1 ∧
      applyOps (applyOp (("xy").toList) (.insert 0 (("a").toList)))
          (insertIncludeInsert 1 (("b").toList) (.insert 0 (("a").toList))) =
        applyOps (applyOp (("xy").toList) (.insert 1 (("b").toList)))
          (insertIncludeInsert 0 (("a").toList) (.insert 1 (("b").toList))) :=
  ⟨by decide, by decide, by decide,
   insert_insert_tp1_distinct_starts (("xy").toList) 0 1 (("a").toList)
     (("b").toList) (by decide) (by decide) (by decide)⟩

/-- Soundness half of the tokenizer error characterization: a completed
tokenization that ends in an error reached the error position by
successful scan steps, found the remaining input non-empty and no
matching definition there, and built the reason string from that
position. -/
theorem tokenizeGo_error_sound (defs : TokDefs) :
    ∀ (fuel : Nat) {s0 : List Char} {start0 : Nat} {toks : List Token}
      {e : TokErr},
      tokenizeGo defs fuel s0 start0 = some (toks, some e) →
      ∃ s', Scan defs s0 start0 toks s' e.position ∧ s' ≠ [] ∧
        matchToken defs s' e.position = none ∧
        e.reason = cannotConsumeReason e.position := by
  intro fuel
  induction fuel with
  | zero =>
      intro s0 start0 toks e h
      simp [tokenizeGo] at h
  | succ fuel ih =>
      intro s0 start0 toks e h
      by_cases hs : s0 = []
      · rw [tokenizeGo, if_pos hs] at h
        simp at h
      · rw [tokenizeGo, if_neg hs] at h
        cases hm : matchToken defs s0 start0 with
        | none =>
            simp only [hm, Option.some.injEq, Prod.mk.injEq] at h
            obtain ⟨rfl, rfl⟩ := h
            exact ⟨s0, Scan.refl s0 start0, hs, hm, rfl⟩
        | some trip =>
            obtain ⟨tok, s', start'⟩ := trip
            simp only [hm] at h
            cases hrec : tokenizeGo defs fuel s' start' with
            | none => simp only [hrec] at h; exact absurd h (by simp)
            | some pr =>
                obtain ⟨toks', err⟩ := pr
                simp only [hrec, Option.some.injEq, Prod.mk.injEq] at h
                obtain ⟨rfl, rfl⟩ := h
                obtain ⟨s'', hscan, hne, hmt, hreason⟩ := ih hrec
                exact ⟨s'', Scan.step hs hm hscan, hne, hmt, hreason⟩

/-- Completeness half: from any state reached by scan steps at which
the remaining input is non-empty and unmatchable, some fuel completes
the tokenization with exactly the scanned tokens and the positioned
error. -/
theorem scan_stuck_tokenizes (defs : TokDefs) :
    ∀ {s0 : List Char} {start0 : Nat} {toks : List Token}
      {s' : List Char} {P : Nat},
      Scan defs s0 start0 toks s' P → s' ≠ [] →
      matchToken defs s' P = none →
      ∃ fuel, tokenizeGo defs fuel s0 start0 =
        some (toks, some ⟨cannotConsumeReason P, P⟩) := by
  intro s0 start0 toks s' P hscan
  induction hscan with
  | refl s start =>
      intro hne hmt
      exact ⟨1, by rw [tokenizeGo, if_neg hne, hmt]⟩
  | step hne' hm rest ih =>
      intro hne hmt
      obtain ⟨fuel, hf⟩ := ih hne hmt
      refine ⟨fuel + 1, ?_⟩
      rw [tokenizeGo, if_neg hne']
      simp only [hm, hf]

/-- C8: a tokenization run raises `TokenizerError` with reason
`"string cannot be further consumed at position P"` and position `P`
exactly when the scan reaches cursor `P` with non-empty remaining input
on which no matcher of the definition list matches; the tokens found
before `P` are still emitted (they are the token component of the
result, characterized as the scanned tokens). -/
theorem tokenizer_error_iff_stuck (defs : TokDefs) (s0 : List Char)
    (start0 : Nat) (toks : List Token) (e : TokErr) :
    (∃ fuel, tokenizeGo defs fuel s0 start0 = some (toks, some e)) ↔
      (∃ s', Scan defs s0 start0 toks s' e.position ∧ s' ≠ [] ∧
        matchToken defs s' e.position = none ∧
        e.reason = cannotConsumeReason e.position) := by
  constructor
  · rintro ⟨fuel, h⟩
    exact tokenizeGo_error_sound defs fuel h
  · rintro ⟨s', hscan, hne, hmt, hreason⟩
    obtain ⟨reason, P⟩ := e
    simp only at hscan hmt hreason
    subst hreason
    exact scan_stuck_tokenizes defs hscan hne hmt

/-- Witness for `tokenizer_error_iff_stuck`: a tokenizer whose only
definition never matches errors immediately at position 0 on `"b"`. -/
theorem tokenizer_error_iff_stuck_witness :
    ∃ fuel, tokenizeGo [(alwaysNoneMatcher, 7)] fuel (("b").toList) 0 =
      some ([], some ⟨cannotConsumeReason 0, 0⟩) :=
  (tokenizer_error_iff_stuck [(alwaysNoneMatcher, 7)] (("b").toList) 0 []
      ⟨cannotConsumeReason 0, 0⟩).mpr
    ⟨("b").toList, Scan.refl _ _, by decide, rfl, rfl⟩

/-- C9: with the default language, parsing the one-character string `+`
raises `ParserError` with reason `+ is not preceded by a repeatable
expression` and annotation `+\n^` (the input, a newline, and a caret
under position 0); in general, parsing any input that begins with a
repetition marker (`*` or `+`) — so that the marker is seen while no
expression has been accumulated — raises that error, with the caret
under the marker. -/
theorem repetition_marker_without_expression_errors :
    parse (("+").toList) =
        .error (.parserError
          (("+ is not preceded by a repeatable expression").toList)
          (("+\n^").toList)) ∧
      ∀ (c : Char) (rest : List Char),
        (c = DEFAULT_LANGUAGE.zero_or_more ∨ c = DEFAULT_LANGUAGE.one_or_more) →
        parse (c :: rest) =
          .error (.parserError (repeatReason c)
            ((c :: rest) ++ '\n' :: ['^'])) := by
  constructor
  · rfl
  · intro c rest hc
    rcases hc with rfl | rfl <;> rfl

/-- Witness for `repetition_marker_without_expression_errors`: parsing
`*x` errors with the caret under the leading `*`. -/
theorem repetition_marker_without_expression_errors_witness :
    parse (("*x").toList) =
      .error (.parserError (repeatReason '*') (("*x\n^").toList)) :=
  (repetition_marker_without_expression_errors.2 '*' (("x").toList)
    (Or.inl rfl)).trans rfl

end Editor
